import Mathlib

/-!
Verification of the ASCII-Text-viewer rendering and animation engine.

The Go program renders user text as FIGlet banner art, colored by a
horizontal gradient between two user-chosen RGB colors, with optional
hue-cycling animation and four glyph render modes.  This file embeds the
program's color model (hex parsing and formatting, linear interpolation,
RGB/HSV conversion, hue rotation), the banner-grid builder, the Bubble
Tea update function (the interaction state machine), and the per-cell
compositor of the View function, and proves the specified properties.

Modelling conventions:
* Go strings are `List Char`.  Go's `len` is a byte count, which agrees
  with `List.length` on ASCII strings; all concrete inputs used below
  are ASCII.  `strings.TrimSpace` trims `unicode.IsSpace` characters,
  whose ASCII part is space, tab, newline, vertical tab, form feed and
  carriage return; the Unicode-only space code points (U+0085, U+00A0)
  are not modelled.
* Go `float64` arithmetic is modelled as exact rational arithmetic.
  Every floating-point computation relied on by a theorem below
  (`t = 0`, `t = 1`, `math.Mod`, sums of multiples of 0.5, sign and
  magnitude facts) is exact in IEEE double precision as well.
  `int(x)` conversion truncates toward zero (`ratTrunc`), and
  `math.Mod x y = x - y * trunc(x/y)` (`goFmod`), exactly as in Go.
* `fmt.Sscanf` with verbs `%02x` / `%1x` is modelled after `fmt/scan.go`:
  each verb gets a width budget (2 resp. 1 runes); leading spaces are
  skipped but consume the budget (`ss.SkipSpace` reads through the
  width-limited `ReadRune`, and a rune pushed back by `UnreadRune` is
  refunded); in `Sscanf` mode a newline in the input is an error; a
  signed destination (`int`) accepts an optional leading sign inside
  the budget, an unsigned destination (`byte`) does not; at least one
  hex digit is required; scanning stops at the first non-digit or when
  the budget is exhausted, and trailing unconsumed input is not an
  error.
-/

set_option maxRecDepth 4000

/-- ASCII part of `unicode.IsSpace`, used by `strings.TrimSpace`. -/
def isTrimSpace (c : Char) : Bool :=
  c == ' ' || c == '\t' || c == '\n' || c == '\u000B' || c == '\u000C' || c == '\r'

/-- `strings.TrimSpace`: drop leading and trailing whitespace. -/
def trimSpace (s : List Char) : List Char :=
  ((s.dropWhile isTrimSpace).reverse.dropWhile isTrimSpace).reverse

/-- Characters skipped by `ss.SkipSpace` in `Sscanf` mode (newline is an
error there, handled separately; `\r\n` also ends in the newline error). -/
def isScanSpace (c : Char) : Bool :=
  c == ' ' || c == '\t' || c == '\u000B' || c == '\u000C' || c == '\r'

/-- Value of a hex digit, as accepted by the `%x` verb. -/
def hexVal (c : Char) : Option Nat :=
  if '0' ≤ c ∧ c ≤ '9' then some (c.toNat - '0'.toNat)
  else if 'a' ≤ c ∧ c ≤ 'f' then some (c.toNat - 'a'.toNat + 10)
  else if 'A' ≤ c ∧ c ≤ 'F' then some (c.toNat - 'A'.toNat + 10)
  else none

/-- `ss.SkipSpace` under a width budget: skip spaces while budget remains,
counting them against the budget; a rune read and pushed back is refunded.
`none` is the "unexpected newline" scan error. -/
def skipPhase : Nat → List Char → Option (Nat × List Char)
  | wid, [] => some (wid, [])
  | 0, s => some (0, s)
  | wid + 1, c :: rest =>
    if c == '\n' then none
    else if isScanSpace c then skipPhase wid rest
    else some (wid + 1, c :: rest)

/-- Greedy run of hex digits within the remaining width budget. -/
def takeHexDigits : Nat → List Char → Nat → Nat × List Char
  | 0, s, acc => (acc, s)
  | _ + 1, [], acc => (acc, [])
  | wid + 1, c :: rest, acc =>
    match hexVal c with
    | some d => takeHexDigits wid rest (acc * 16 + d)
    | none => (acc, c :: rest)

/-- `ss.scanNumber`: at least one hex digit, then a greedy run. -/
def scanDigits (wid : Nat) (s : List Char) : Option (Nat × List Char) :=
  match wid, s with
  | 0, _ => none
  | _, [] => none
  | wid + 1, c :: rest =>
    match hexVal c with
    | none => none
    | some d => some (takeHexDigits wid rest d)

/-- One `%x` operand of `Sscanf` with width `wid`: skip spaces (within
budget), require a readable rune (`notEOF`), accept a sign when the
destination is signed, then scan digits. -/
def scanHexInt (signed : Bool) (wid : Nat) (s : List Char) : Option (Int × List Char) :=
  match skipPhase wid s with
  | none => none
  | some (0, _) => none
  | some (_, []) => none
  | some (wid1, c :: rest) =>
    if signed && (c == '-' || c == '+') then
      match scanDigits (wid1 - 1) rest with
      | none => none
      | some (v, r) => some (if c == '-' then -(v : Int) else (v : Int), r)
    else
      match scanDigits wid1 (c :: rest) with
      | none => none
      | some (v, r) => some ((v : Int), r)

/-- `colorRGB` from the source: three Go `int` components. -/
structure colorRGB where
  R : Int
  G : Int
  B : Int
deriving DecidableEq

/-- `parseHexColor` from the source: trim whitespace, require a leading
`#`, then switch on the remaining length; 6 hex pairs via
`Sscanf "%02x%02x%02x"` into `int`s, or 3 nibbles via
`Sscanf "%1x%1x%1x"` into `byte`s, each multiplied by 17.
`none` is `ok == false`. -/
def parseHexColor (s : List Char) : Option colorRGB :=
  match trimSpace s with
  | '#' :: rest =>
    if rest.length = 6 then
      match scanHexInt true 2 rest with
      | none => none
      | some (r, s1) =>
        match scanHexInt true 2 s1 with
        | none => none
        | some (g, s2) =>
          match scanHexInt true 2 s2 with
          | none => none
          | some (b, _) => some ⟨r, g, b⟩
    else if rest.length = 3 then
      match scanHexInt false 1 rest with
      | none => none
      | some (r1, s1) =>
        match scanHexInt false 1 s1 with
        | none => none
        | some (g1, s2) =>
          match scanHexInt false 1 s2 with
          | none => none
          | some (b1, _) => some ⟨r1 * 17, g1 * 17, b1 * 17⟩
    else none
  | _ => none

/-- Go `int(x)` conversion of a float: truncation toward zero. -/
def ratTrunc (x : ℚ) : Int := if 0 ≤ x then ⌊x⌋ else ⌈x⌉

/-- Go `math.Mod x y = x - trunc(x/y)*y` (exact for floats). -/
def goFmod (x y : ℚ) : ℚ := x - y * (ratTrunc (x / y) : ℚ)

/-- `lerp` from the source: per-channel `a + (b-a)*t`, truncated to int. -/
def lerp (a b : colorRGB) (t : ℚ) : colorRGB :=
  ⟨ratTrunc ((a.R : ℚ) + ((b.R : ℚ) - (a.R : ℚ)) * t),
   ratTrunc ((a.G : ℚ) + ((b.G : ℚ) - (a.G : ℚ)) * t),
   ratTrunc ((a.B : ℚ) + ((b.B : ℚ) - (a.B : ℚ)) * t)⟩

/-- Lowercase hex digit character, as printed by `%02x`. -/
def hexChar (n : Nat) : Char :=
  if n < 10 then Char.ofNat ('0'.toNat + n) else Char.ofNat ('a'.toNat + (n - 10))

/-- Two zero-padded lowercase hex digits of one component (the behavior
of `%02x` for components in `[0,255]`). -/
def toHex2 (n : Int) : List Char := [hexChar (n.toNat / 16), hexChar (n.toNat % 16)]

/-- `(c colorRGB) Hex()` from the source: `fmt.Sprintf("#%02x%02x%02x", ...)`. -/
def hexString (c : colorRGB) : List Char :=
  '#' :: (toHex2 c.R ++ toHex2 c.G ++ toHex2 c.B)

/-- `rgbToHsv` from the source.  Returns `(h, s, v)`. -/
def rgbToHsv (c : colorRGB) : ℚ × ℚ × ℚ :=
  let r : ℚ := (c.R : ℚ) / 255
  let g : ℚ := (c.G : ℚ) / 255
  let b : ℚ := (c.B : ℚ) / 255
  let maxv := max r (max g b)
  let minv := min r (min g b)
  let d := maxv - minv
  if maxv = 0 then (0, 0, 0)
  else
    let s := d / maxv
    let h :=
      if d = 0 then (0 : ℚ)
      else
        (if maxv = r then (if g < b then (g - b) / d + 6 else (g - b) / d)
         else if maxv = g then (b - r) / d + 2
         else (r - g) / d + 4) * 60
    (h, s, maxv)

/-- `hsvToRgb` from the source: wrap the hue into `[0,360)`, then the
six-sector conversion, truncating each channel to int. -/
def hsvToRgb (h0 s v : ℚ) : colorRGB :=
  let h1 := goFmod h0 360
  let h := if h1 < 0 then h1 + 360 else h1
  let c := v * s
  let x := c * (1 - |goFmod (h / 60) 2 - 1|)
  let m := v - c
  let rgb : ℚ × ℚ × ℚ :=
    if h < 60 then (c, x, 0)
    else if h < 120 then (x, c, 0)
    else if h < 180 then (0, c, x)
    else if h < 240 then (0, x, c)
    else if h < 300 then (x, 0, c)
    else (c, 0, x)
  ⟨ratTrunc ((rgb.1 + m) * 255), ratTrunc ((rgb.2.1 + m) * 255), ratTrunc ((rgb.2.2 + m) * 255)⟩

/-- `rotateHue` from the source. -/
def rotateHue (c : colorRGB) (delta : ℚ) : colorRGB :=
  let hsv := rgbToHsv c
  hsvToRgb (hsv.1 + delta) hsv.2.1 hsv.2.2

example : parseHexColor "#abc".toList = some ⟨170, 187, 204⟩ := by decide
example : parseHexColor "#aabbcc".toList = some ⟨170, 187, 204⟩ := by decide
example : parseHexColor "#8A2BE2".toList = some ⟨138, 43, 226⟩ := by decide
example : parseHexColor "abc".toList = none := by decide
example : parseHexColor "#ab".toList = none := by decide
example : parseHexColor "#abcd".toList = none := by decide
example : parseHexColor "#xyz123".toList = none := by decide
example : parseHexColor "#ab cde".toList = some ⟨171, 12, 222⟩ := by decide
example : parseHexColor "  #abc  ".toList = some ⟨170, 187, 204⟩ := by decide
example : parseHexColor "#zzzzzz".toList = none := by decide
example : parseHexColor "#000000".toList = some ⟨0, 0, 0⟩ := by decide
example : parseHexColor (hexString ⟨138, 43, 226⟩) = some ⟨138, 43, 226⟩ := by decide

/-! ## Banner grid builder -/

/-- `strings.TrimRight(s, "\n")`: drop trailing newline characters. -/
def dropTrailingNl (s : List Char) : List Char :=
  (s.reverse.dropWhile (· == '\n')).reverse

/-- `strings.Split(s, "\n")`. -/
def splitNl : List Char → List (List Char)
  | [] => [[]]
  | c :: rest =>
    if c = '\n' then [] :: splitNl rest
    else
      match splitNl rest with
      | [] => [[c]]
      | l :: ls => (c :: l) :: ls

/-- The `maxW` loop of `rebuildArt`: running maximum of the line lengths. -/
def goMaxWidth (lines : List (List Char)) : Nat :=
  lines.foldl (fun acc l => if acc < l.length then l.length else acc) 0

/-- `rebuildArt` applied to the glyph generator's output string: split the
newline-right-trimmed figure text into lines and record the maximum
line length. -/
def rebuildArtLines (figOut : List Char) : List (List Char) × Nat :=
  let lines := splitNl (dropTrailingNl figOut)
  (lines, goMaxWidth lines)

/-- The padding step of the `View` render loop:
`if len(line) < maxWidth { line += strings.Repeat(" ", maxWidth-len(line)) }`. -/
def padLine (w : Nat) (l : List Char) : List Char :=
  if l.length < w then l ++ List.replicate (w - l.length) ' ' else l

/-! ## The model and the update function -/

/-- The FIGlet font catalog `figFonts` from the source. -/
def figFonts : List String :=
  ["standard", "big", "doom", "slant", "shadow", "block", "banner", "larry3d", "speed", "smslant", "small", "isometric1",
   "3-d", "3x5", "5lineoblique", "acrobatic", "alligator", "alligator2", "alphabet",
   "avatar", "banner3-D", "banner3", "banner4", "barbwire", "basic", "bell", "bigchief",
   "binary", "bubble", "bulbhead", "calgphy2", "caligraphy", "catwalk", "chunky",
   "coinstak", "colossal", "computer", "contessa", "contrast", "cosmic", "cosmike",
   "cricket", "cursive", "cyberlarge", "cybermedium", "cybersmall", "diamond", "digital", "doh", "dotmatrix", "drpepper",
   "eftichess", "eftifont", "eftipiti", "eftirobot", "eftitalic", "eftiwall", "eftiwater",
   "epic", "fender", "fourtops", "fuzzy", "goofy", "gothic", "graffiti", "hollywood",
   "invita", "isometric2", "isometric3", "isometric4", "italic", "ivrit", "jazmine",
   "jerusalem", "katakana", "kban", "lcd", "lean", "letters", "linux", "lockergnome",
   "madrid", "marquee", "maxfour", "mike", "mini", "mirror", "mnemonic", "morse",
   "moscow", "nancyj-fancy", "nancyj-underlined", "nancyj", "nipples", "ntgreek", "o8",
   "ogre", "pawp", "peaks", "pebbles", "pepper", "poison", "puffy", "pyramid", "rectangles",
   "relief", "relief2", "rev", "roman", "rot13", "rounded", "rowancap", "rozzo", "runic",
   "runyc", "sblood", "script", "serifcap", "short", "slide", "slscript", "smisome1", "smkeyboard",
   "smscript", "smshadow", "smtengwar", "stampatello", "starwars", "stellar", "stop",
   "straight", "tanja", "tengwar", "term", "thick", "thin", "threepoint", "ticks", "ticksslant",
   "tinker-toy", "tombstone", "trek", "tsalagi", "twopoint", "univers", "usaflag", "wavy",
   "weird"]

/-- `modeNames` from the source; `renderMode` cycles modulo its length. -/
def modeNames : List String := ["BLOCK █", "GLYPH", "LIGHT ▓", "DOTS ·"]

/-- The session state (`model` in the source).  The three text inputs are
collaborator widgets; only their string values are modelled.  The Go
`renderMode` is an `int` (0 = BLOCK, 1 = GLYPH, 2 = LIGHT, 3 = DOTS).
The tick `interval` is wall-clock configuration and is not modelled. -/
structure Model where
  w : Int
  h : Int
  input0 : List Char
  input1 : List Char
  input2 : List Char
  focused0 : Bool
  focused1 : Bool
  focused2 : Bool
  focusIndex : Int
  fontIndex : Int
  artLines : List (List Char)
  maxWidth : Nat
  baseStart : colorRGB
  baseEnd : colorRGB
  mode : Int
  animate : Bool
  hueShift : ℚ
  stepDeg : ℚ

/-- The events delivered to `Update`.  A key not matched by a dedicated
binding is delegated to the focused text-input collaborator; the
`other` payload carries the three input values after that delegation. -/
inductive GoKey
  | quit
  | tab
  | shiftTab
  | fontPrev
  | fontNext
  | modeKey
  | animKey
  | speedUp
  | speedDown
  | other (v0 v1 v2 : List Char)

/-- The three message types handled by `Update`. -/
inductive GoMsg
  | winSize (w h : Int)
  | key (k : GoKey)
  | tick

/-- The `tea.Cmd` values `Update` can return: `nil`, `tickEvery(interval)`
(schedules exactly one future tick), `tea.Quit`, and the `tea.Batch` of
input-widget commands returned on the field-edit path. -/
inductive GoCmd
  | nilCmd
  | tickCmd
  | quitCmd
  | batchCmd
deriving DecidableEq

/-- A glyph-generator collaborator: text and font name to figure text. -/
def FigFun : Type := List Char → String → List Char

/-- `(m *model) rebuildArt()`: rebuild the cached art lines and width from
the current text and font.  Go indexes `m.fonts[m.fontIndex]`, which
panics out of range; the total model uses `getD` (the reachable-state
invariant proves the index is always in range). -/
def rebuildArt (fig : FigFun) (m : Model) : Model :=
  let p := rebuildArtLines (fig m.input0 (figFonts.getD m.fontIndex.toNat ""))
  { m with artLines := p.1, maxWidth := p.2 }

/-- Go `%` on int (truncated division remainder). -/
def goIntMod (a b : Int) : Int := a.tmod b

/-- The `Update` function of the animated viewer, one step of the
interaction state machine.  Returns the new model and the returned
command. -/
def updateM (fig : FigFun) (m : Model) (msg : GoMsg) : Model × GoCmd :=
  match msg with
  | .winSize w h => ({ m with w := w, h := h }, .nilCmd)
  | .tick =>
    if m.animate then
      ({ m with hueShift := goFmod (m.hueShift + m.stepDeg) 360 }, .tickCmd)
    else (m, .nilCmd)
  | .key k =>
    match k with
    | .quit => (m, .quitCmd)
    | .tab =>
      let f0 := m.focusIndex + 1
      let f1 := if f0 < 0 then 2 else f0
      let f := if 3 ≤ f1 then 0 else f1
      ({ m with focusIndex := f, focused0 := f == 0, focused1 := f == 1, focused2 := f == 2 },
       .nilCmd)
    | .shiftTab =>
      let f0 := m.focusIndex - 1
      let f1 := if f0 < 0 then 2 else f0
      let f := if 3 ≤ f1 then 0 else f1
      ({ m with focusIndex := f, focused0 := f == 0, focused1 := f == 1, focused2 := f == 2 },
       .nilCmd)
    | .fontPrev =>
      (rebuildArt fig
        { m with fontIndex := goIntMod (m.fontIndex - 1 + figFonts.length) figFonts.length },
       .nilCmd)
    | .fontNext =>
      (rebuildArt fig { m with fontIndex := goIntMod (m.fontIndex + 1) figFonts.length },
       .nilCmd)
    | .modeKey => ({ m with mode := goIntMod (m.mode + 1) modeNames.length }, .nilCmd)
    | .animKey =>
      let a := !m.animate
      ({ m with animate := a }, if a then .tickCmd else .nilCmd)
    | .speedUp => ({ m with stepDeg := min 30 (m.stepDeg + 1/2) }, .nilCmd)
    | .speedDown => ({ m with stepDeg := max (1/2) (m.stepDeg - 1/2) }, .nilCmd)
    | .other v0 v1 v2 =>
      let m1 := rebuildArt fig { m with input0 := v0, input1 := v1, input2 := v2 }
      let m2 :=
        match parseHexColor v1 with
        | some c => { m1 with baseStart := c }
        | none => m1
      let m3 :=
        match parseHexColor v2 with
        | some c => { m2 with baseEnd := c }
        | none => m2
      (m3, .batchCmd)

/-- `newModel()` from the source: the documented defaults, then
`rebuildArt`.  `modeGlyph = 1`, animation on at 3 degrees per tick. -/
def newModel (fig : FigFun) : Model :=
  rebuildArt fig
    { w := 0, h := 0
      input0 := "glam dm".toList, input1 := "#8A2BE2".toList, input2 := "#00FFFF".toList
      focused0 := true, focused1 := false, focused2 := false
      focusIndex := 0, fontIndex := 0
      artLines := [], maxWidth := 0
      baseStart := ⟨138, 43, 226⟩, baseEnd := ⟨0, 255, 255⟩
      mode := 1, animate := true, hueShift := 0, stepDeg := 3 }

/-- States reachable from the initial state by any event sequence,
for any behavior of the glyph-generator collaborator. -/
inductive Reachable : Model → Prop
  | init (fig : FigFun) : Reachable (newModel fig)
  | step (fig : FigFun) (m : Model) (msg : GoMsg) :
      Reachable m → Reachable (updateM fig m msg).1

/-! ## The View compositor -/

/-- `t := 0.0; if m.maxWidth > 1 { t = float64(x)/float64(m.maxWidth-1) }`. -/
def gradT (maxW x : Nat) : ℚ :=
  if 1 < maxW then (x : ℚ) / ((maxW : ℚ) - 1) else 0

/-- The glyph(s) written for one non-blank cell by the `switch m.mode`
in `View`: full block, medium shade, center dot, or the source
character; a mode outside the four cases writes nothing. -/
def modeGlyphs (mode : Int) (ch : Char) : List Char :=
  if mode = 0 then ['█']
  else if mode = 2 then ['▓']
  else if mode = 3 then ['·']
  else if mode = 1 then [ch]
  else []

/-- One row of the colored art built by `View`: pad the line to
`maxWidth`, then per column emit an uncolored blank for a blank source
cell and otherwise the mode glyph colored by the per-column gradient. -/
def viewCellsRow (effS effE : colorRGB) (maxW : Nat) (mode : Int) (line : List Char) :
    List (Char × Option colorRGB) :=
  (List.range maxW).flatMap fun x =>
    let ch := (padLine maxW line).getD x ' '
    if ch = ' ' then [(' ', none)]
    else (modeGlyphs mode ch).map fun g => (g, some (lerp effS effE (gradT maxW x)))

/-- The art-grid part of `View`: effective endpoints are the base colors,
hue-rotated when animating, and every row is rendered with the same
endpoints, width and mode. -/
def viewRows (m : Model) : List (List (Char × Option colorRGB)) :=
  let effS := if m.animate then rotateHue m.baseStart m.hueShift else m.baseStart
  let effE := if m.animate then rotateHue m.baseEnd m.hueShift else m.baseEnd
  m.artLines.map (viewCellsRow effS effE m.maxWidth m.mode)

/-- The glyph-substitution table as stated by the specification: full
block for BLOCK (0), medium shade for LIGHT (2), center dot for
DOTS (3), and the source character for GLYPH (1). -/
def glyphOf (mode : Int) (ch : Char) : Char :=
  if mode = 0 then '█' else if mode = 2 then '▓' else if mode = 3 then '·' else ch

/-- A concrete session state used for witness instances: a one-cell grid
in GLYPH mode with animation off. -/
def mTest : Model :=
  { w := 1, h := 1, input0 := [], input1 := [], input2 := []
    focused0 := true, focused1 := false, focused2 := false
    focusIndex := 0, fontIndex := 0
    artLines := [['a']], maxWidth := 1
    baseStart := ⟨0, 0, 0⟩, baseEnd := ⟨255, 255, 255⟩
    mode := 1, animate := false, hueShift := 0, stepDeg := 3 }

/-- The hue-shift recurrence driven by Tick events: each accepted tick
performs `hueShift := math.Mod(hueShift + stepDeg, 360)`. -/
def hueN : Nat → ℚ → ℚ → ℚ
  | 0, h, _ => h
  | n + 1, h, s => hueN n (goFmod (h + s) 360) s

/-- Iterated delivery of Tick events to the update function. -/
def tickIter (fig : FigFun) : Nat → Model → Model
  | 0, m => m
  | n + 1, m => tickIter fig n (updateM fig m .tick).1

/-- The in-range invariant on indices, hue phase and speed maintained by
the update function. -/
def InvM (m : Model) : Prop :=
  0 ≤ m.fontIndex ∧ m.fontIndex < (figFonts.length : Int) ∧
  0 ≤ m.mode ∧ m.mode < 4 ∧
  0 ≤ m.focusIndex ∧ m.focusIndex < 3 ∧
  0 ≤ m.hueShift ∧ m.hueShift < 360 ∧
  1 / 2 ≤ m.stepDeg ∧ m.stepDeg ≤ 30

/-- A trivial glyph-generator collaborator, used for concrete instances. -/
def figEmptyOut : FigFun := fun _ _ => []

example : rebuildArtLines "ab\nc\n\n".toList = ([['a', 'b'], ['c']], 2) := by decide
example : rebuildArtLines [] = ([[]], 0) := by decide
example : figFonts.length = 148 := by decide

/-! ## Helper lemmas about truncation -/

theorem ratTrunc_intCast (n : Int) : ratTrunc (n : ℚ) = n := by
  rcases le_or_lt 0 (n : ℚ) with h | h
  · rw [ratTrunc, if_pos h, Int.floor_intCast]
  · rw [ratTrunc, if_neg (not_le.mpr h), Int.ceil_intCast]

theorem ratTrunc_nonneg_le {x : ℚ} {k : Int} (h0 : 0 ≤ x) (hk : x ≤ (k : ℚ)) :
    0 ≤ ratTrunc x ∧ ratTrunc x ≤ k := by
  rw [ratTrunc, if_pos h0]
  refine ⟨Int.le_floor.mpr (by exact_mod_cast h0), ?_⟩
  have := Int.floor_le_floor hk
  rwa [Int.floor_intCast] at this

/-! ## C6: interpolation truncates toward zero and is exact at t = 0, 1 -/

/-- Claim C6: `lerp` computes each channel as `a + (b - a) * t` truncated
toward zero (not rounded to nearest; at `t = 9/10` of a unit step the
result is still `0`), and at the boundaries `lerp a b 0 = a` and
`lerp a b 1 = b` exactly. -/
theorem lerp_truncation_boundary :
    (∀ a b : colorRGB, lerp a b 0 = a ∧ lerp a b 1 = b) ∧
    (∀ (a b : colorRGB) (t : ℚ),
      lerp a b t =
        ⟨ratTrunc ((a.R : ℚ) + ((b.R : ℚ) - (a.R : ℚ)) * t),
         ratTrunc ((a.G : ℚ) + ((b.G : ℚ) - (a.G : ℚ)) * t),
         ratTrunc ((a.B : ℚ) + ((b.B : ℚ) - (a.B : ℚ)) * t)⟩) ∧
    lerp ⟨0, 0, 0⟩ ⟨1, 1, 1⟩ (9 / 10) = ⟨0, 0, 0⟩ := by
  refine ⟨fun a b => ⟨?_, ?_⟩, fun a b t => rfl, ?_⟩
  · simp [lerp, ratTrunc_intCast]
  · have hR : (a.R : ℚ) + ((b.R : ℚ) - (a.R : ℚ)) * 1 = (b.R : ℚ) := by ring
    have hG : (a.G : ℚ) + ((b.G : ℚ) - (a.G : ℚ)) * 1 = (b.G : ℚ) := by ring
    have hB : (a.B : ℚ) + ((b.B : ℚ) - (a.B : ℚ)) * 1 = (b.B : ℚ) := by ring
    simp [lerp, hR, hG, hB, ratTrunc_intCast]
  · have h1 : ((0 : Int) : ℚ) + (((1 : Int) : ℚ) - ((0 : Int) : ℚ)) * (9 / 10) = 9 / 10 := by
      norm_num
    have h2 : ratTrunc (9 / 10 : ℚ) = 0 := by
      rw [ratTrunc, if_pos (by norm_num)]
      rw [Int.floor_eq_zero_iff]
      constructor <;> norm_num
    simp only [lerp, h1, h2]

/-! ## Scanner lemmas for C1 and C7 -/

theorem hexVal_ge (c : Char) {v : Nat} (h : hexVal c = some v) : '0' ≤ c := by
  unfold hexVal at h
  split_ifs at h with h1 h2 h3
  · exact h1.1
  · exact le_trans (by decide) h2.1
  · exact le_trans (by decide) h3.1

theorem hexVal_not_special (c : Char) {v : Nat} (h : hexVal c = some v) :
    (c == '\n') = false ∧ isScanSpace c = false ∧ (c == '-') = false ∧ (c == '+') = false := by
  have hc := hexVal_ge c h
  have hne : ∀ d : Char, d < '0' → (c == d) = false := by
    intro d hd
    apply beq_eq_false_iff_ne.mpr
    intro he
    rw [he] at hc
    exact absurd (lt_of_lt_of_le hd hc) (lt_irrefl d)
  refine ⟨hne '\n' (by decide), ?_, hne '-' (by decide), hne '+' (by decide)⟩
  simp only [isScanSpace, hne ' ' (by decide), hne '\t' (by decide), hne '\u000B' (by decide),
    hne '\u000C' (by decide), hne '\r' (by decide), Bool.or_self]

theorem skipPhase_hex (wid : Nat) (c : Char) (rest : List Char) {v : Nat}
    (h : hexVal c = some v) :
    skipPhase (wid + 1) (c :: rest) = some (wid + 1, c :: rest) := by
  obtain ⟨hn, hs, _, _⟩ := hexVal_not_special c h
  simp [skipPhase, hn, hs]

theorem scanHexInt_two (d1 d2 : Char) (v1 v2 : Nat) (rest : List Char)
    (h1 : hexVal d1 = some v1) (h2 : hexVal d2 = some v2) :
    scanHexInt true 2 (d1 :: d2 :: rest) = some (((v1 * 16 + v2 : Nat) : Int), rest) := by
  obtain ⟨_, _, hm, hp⟩ := hexVal_not_special d1 h1
  rw [scanHexInt, skipPhase_hex 1 d1 (d2 :: rest) h1]
  simp only [hm, hp, Bool.or_self, Bool.and_false]
  rw [if_neg (by simp)]
  rw [scanDigits]
  simp only [h1]
  rw [takeHexDigits]
  simp only [h2]
  rfl

theorem scanHexInt_one (d : Char) (v : Nat) (rest : List Char) (h : hexVal d = some v) :
    scanHexInt false 1 (d :: rest) = some ((v : Int), rest) := by
  rw [scanHexInt, skipPhase_hex 0 d rest h]
  simp only [Bool.false_and]
  rw [if_neg (by simp)]
  rw [scanDigits]
  simp only [h]
  rfl

theorem beq_false_of_lt (d : Char) {c : Char} (hd : d < '0') (hc : '0' ≤ c) :
    (c == d) = false := by
  apply beq_eq_false_iff_ne.mpr
  intro he
  rw [he] at hc
  exact absurd (lt_of_lt_of_le hd hc) (lt_irrefl d)

theorem isTrimSpace_false_of_ge {c : Char} (hc : '0' ≤ c) : isTrimSpace c = false := by
  simp only [isTrimSpace, beq_false_of_lt ' ' (by decide) hc, beq_false_of_lt '\t' (by decide) hc,
    beq_false_of_lt '\n' (by decide) hc, beq_false_of_lt '\u000B' (by decide) hc,
    beq_false_of_lt '\u000C' (by decide) hc, beq_false_of_lt '\r' (by decide) hc, Bool.or_self]

theorem trimSpace_eq_self {s : List Char}
    (h1 : ∀ c, s.head? = some c → isTrimSpace c = false)
    (h2 : ∀ c, s.getLast? = some c → isTrimSpace c = false) : trimSpace s = s := by
  have front : s.dropWhile isTrimSpace = s := by
    cases s with
    | nil => rfl
    | cons a l =>
      rw [List.dropWhile_cons, h1 a rfl]
      simp
  rw [trimSpace, front]
  have back : s.reverse.dropWhile isTrimSpace = s.reverse := by
    cases hr : s.reverse with
    | nil => rfl
    | cons a l =>
      have ha : s.getLast? = some a := by
        rw [← List.head?_reverse, hr]
        rfl
      rw [List.dropWhile_cons, h2 a ha]
      simp
  rw [back, List.reverse_reverse]

theorem parseHexColor_no_hash (s : List Char)
    (h : ∀ c rest, trimSpace s = c :: rest → c ≠ '#') : parseHexColor s = none := by
  unfold parseHexColor
  split
  · next rest heq => exact absurd rfl (h '#' rest heq)
  · rfl

theorem parseHexColor_bad_length (s rest : List Char)
    (heq : trimSpace s = '#' :: rest) (h6 : rest.length ≠ 6) (h3 : rest.length ≠ 3) :
    parseHexColor s = none := by
  unfold parseHexColor
  split
  · next rest' heq' =>
    rw [heq] at heq'
    obtain rfl : rest = rest' := by injection heq'
    rw [if_neg h6, if_neg h3]
  · rfl

theorem parseHexColor_six (d1 d2 d3 d4 d5 d6 : Char) (v1 v2 v3 v4 v5 v6 : Nat)
    (h1 : hexVal d1 = some v1) (h2 : hexVal d2 = some v2) (h3 : hexVal d3 = some v3)
    (h4 : hexVal d4 = some v4) (h5 : hexVal d5 = some v5) (h6 : hexVal d6 = some v6) :
    parseHexColor ['#', d1, d2, d3, d4, d5, d6] =
      some ⟨((v1 * 16 + v2 : Nat) : Int), ((v3 * 16 + v4 : Nat) : Int),
            ((v5 * 16 + v6 : Nat) : Int)⟩ := by
  have htrim : trimSpace ['#', d1, d2, d3, d4, d5, d6] = ['#', d1, d2, d3, d4, d5, d6] := by
    apply trimSpace_eq_self
    · intro c hc
      obtain rfl : c = '#' := by injection hc with hc'; exact hc'.symm
      decide
    · intro c hc
      simp only [List.getLast?_cons_cons, List.getLast?_singleton, Option.some.injEq] at hc
      subst hc
      exact isTrimSpace_false_of_ge (hexVal_ge d6 h6)
  unfold parseHexColor
  rw [htrim]
  simp only [List.length_cons, List.length_nil]
  rw [if_pos trivial]
  simp only [scanHexInt_two d1 d2 v1 v2 _ h1 h2, scanHexInt_two d3 d4 v3 v4 _ h3 h4,
    scanHexInt_two d5 d6 v5 v6 _ h5 h6]

theorem parseHexColor_three (d1 d2 d3 : Char) (v1 v2 v3 : Nat)
    (h1 : hexVal d1 = some v1) (h2 : hexVal d2 = some v2) (h3 : hexVal d3 = some v3) :
    parseHexColor ['#', d1, d2, d3] =
      some ⟨(v1 : Int) * 17, (v2 : Int) * 17, (v3 : Int) * 17⟩ := by
  have htrim : trimSpace ['#', d1, d2, d3] = ['#', d1, d2, d3] := by
    apply trimSpace_eq_self
    · intro c hc
      obtain rfl : c = '#' := by injection hc with hc'; exact hc'.symm
      decide
    · intro c hc
      simp only [List.getLast?_cons_cons, List.getLast?_singleton, Option.some.injEq] at hc
      subst hc
      exact isTrimSpace_false_of_ge (hexVal_ge d3 h3)
  unfold parseHexColor
  rw [htrim]
  simp only [List.length_cons, List.length_nil]
  rw [if_neg (by norm_num), if_pos trivial]
  simp only [scanHexInt_one d1 v1 _ h1, scanHexInt_one d2 v2 _ h2, scanHexInt_one d3 v3 _ h3]

/-! ## C1: what parseHexColor accepts and rejects -/

/-- Claim C1 (counterexample): the claim states that any non-hex digit
among the six characters after `#` makes the parse invalid, yet
`"#ab cde"` — with a space, a non-hex character, among the six — is
accepted, because the `Sscanf` verbs skip interior spaces. -/
theorem parseHexColor_accepts_inner_space :
    (parseHexColor "#ab cde".toList).isSome = true := by decide

/-- Claim C1 (amended): `parseHexColor` accepts `#RGB` (each nibble
scaled by 17, so `#abc` parses equal to `#aabbcc`) and `#RRGGBB` with
case-insensitive hex digits, ignoring leading/trailing whitespace; a
missing `#` or a wrong length after `#` is invalid, and
`parseHex("abc")`, `parseHex("#ab")`, `parseHex("#abcd")`,
`parseHex("#xyz123")` are all invalid.  However, it is not true that
every non-hex character among the six (or three) payload characters
makes the parse invalid: the scanner skips interior spaces (within each
verb's width) and ignores unconsumed trailing characters, so inputs
such as `"#ab cde"` and `"#12345z"` are accepted. -/
theorem parseHexColor_spec :
    (∀ (d1 d2 d3 d4 d5 d6 : Char) (v1 v2 v3 v4 v5 v6 : Nat),
      hexVal d1 = some v1 → hexVal d2 = some v2 → hexVal d3 = some v3 →
      hexVal d4 = some v4 → hexVal d5 = some v5 → hexVal d6 = some v6 →
      parseHexColor ['#', d1, d2, d3, d4, d5, d6] =
        some ⟨((v1 * 16 + v2 : Nat) : Int), ((v3 * 16 + v4 : Nat) : Int),
              ((v5 * 16 + v6 : Nat) : Int)⟩) ∧
    (∀ (d1 d2 d3 : Char) (v1 v2 v3 : Nat),
      hexVal d1 = some v1 → hexVal d2 = some v2 → hexVal d3 = some v3 →
      parseHexColor ['#', d1, d2, d3] =
        parseHexColor ['#', d1, d1, d2, d2, d3, d3]) ∧
    (∀ s : List Char, (∀ c rest, trimSpace s = c :: rest → c ≠ '#') →
      parseHexColor s = none) ∧
    (∀ s rest : List Char, trimSpace s = '#' :: rest →
      rest.length ≠ 6 → rest.length ≠ 3 → parseHexColor s = none) ∧
    parseHexColor "abc".toList = none ∧
    parseHexColor "#ab".toList = none ∧
    parseHexColor "#abcd".toList = none ∧
    parseHexColor "#xyz123".toList = none ∧
    parseHexColor "#ABC".toList = parseHexColor "#abc".toList ∧
    parseHexColor " #abc ".toList = parseHexColor "#abc".toList ∧
    (parseHexColor "#ab cde".toList).isSome = true ∧
    (parseHexColor "#12345z".toList).isSome = true := by
  refine ⟨parseHexColor_six, ?_, parseHexColor_no_hash, parseHexColor_bad_length,
    by decide, by decide, by decide, by decide, by decide, by decide, by decide, by decide⟩
  intro d1 d2 d3 v1 v2 v3 h1 h2 h3
  rw [parseHexColor_three d1 d2 d3 v1 v2 v3 h1 h2 h3,
    parseHexColor_six d1 d1 d2 d2 d3 d3 v1 v1 v2 v2 v3 v3 h1 h1 h2 h2 h3 h3]
  simp only [Option.some.injEq, colorRGB.mk.injEq]
  refine ⟨?_, ?_, ?_⟩ <;> push_cast <;> ring

/-- Witness for `parseHexColor_spec` at the concrete input `"#abcdef"`. -/
theorem parseHexColor_spec_witness :
    hexVal 'a' = some 10 ∧ hexVal 'b' = some 11 ∧ hexVal 'c' = some 12 ∧
    hexVal 'd' = some 13 ∧ hexVal 'e' = some 14 ∧ hexVal 'f' = some 15 ∧
    parseHexColor ['#', 'a', 'b', 'c', 'd', 'e', 'f'] =
      some ⟨((10 * 16 + 11 : Nat) : Int), ((12 * 16 + 13 : Nat) : Int),
            ((14 * 16 + 15 : Nat) : Int)⟩ :=
  ⟨by decide, by decide, by decide, by decide, by decide, by decide,
   parseHexColor_spec.1 'a' 'b' 'c' 'd' 'e' 'f' 10 11 12 13 14 15
     (by decide) (by decide) (by decide) (by decide) (by decide) (by decide)⟩

/-! ## C7: hex round-trip -/

theorem hexVal_hexChar : ∀ k : Nat, k < 16 → hexVal (hexChar k) = some k := by decide

/-- Claim C7: formatting a color with components in `[0,255]` as lowercase
zero-padded `#rrggbb` and parsing it back returns exactly that color. -/
theorem hex_round_trip : ∀ c : colorRGB,
    0 ≤ c.R → c.R ≤ 255 → 0 ≤ c.G → c.G ≤ 255 → 0 ≤ c.B → c.B ≤ 255 →
    parseHexColor (hexString c) = some c := by
  intro c hR0 hR1 hG0 hG1 hB0 hB1
  have hRn : c.R.toNat ≤ 255 := by omega
  have hGn : c.G.toNat ≤ 255 := by omega
  have hBn : c.B.toNat ≤ 255 := by omega
  have key := parseHexColor_six (hexChar (c.R.toNat / 16)) (hexChar (c.R.toNat % 16))
    (hexChar (c.G.toNat / 16)) (hexChar (c.G.toNat % 16))
    (hexChar (c.B.toNat / 16)) (hexChar (c.B.toNat % 16))
    (c.R.toNat / 16) (c.R.toNat % 16) (c.G.toNat / 16) (c.G.toNat % 16)
    (c.B.toNat / 16) (c.B.toNat % 16)
    (hexVal_hexChar _ (by omega)) (hexVal_hexChar _ (by omega))
    (hexVal_hexChar _ (by omega)) (hexVal_hexChar _ (by omega))
    (hexVal_hexChar _ (by omega)) (hexVal_hexChar _ (by omega))
  have hshape : hexString c =
      ['#', hexChar (c.R.toNat / 16), hexChar (c.R.toNat % 16), hexChar (c.G.toNat / 16),
       hexChar (c.G.toNat % 16), hexChar (c.B.toNat / 16), hexChar (c.B.toNat % 16)] := rfl
  rw [hshape, key]
  have eR : ((c.R.toNat / 16 * 16 + c.R.toNat % 16 : Nat) : Int) = c.R := by
    have : c.R.toNat / 16 * 16 + c.R.toNat % 16 = c.R.toNat := by omega
    rw [this]
    omega
  have eG : ((c.G.toNat / 16 * 16 + c.G.toNat % 16 : Nat) : Int) = c.G := by
    have : c.G.toNat / 16 * 16 + c.G.toNat % 16 = c.G.toNat := by omega
    rw [this]
    omega
  have eB : ((c.B.toNat / 16 * 16 + c.B.toNat % 16 : Nat) : Int) = c.B := by
    have : c.B.toNat / 16 * 16 + c.B.toNat % 16 = c.B.toNat := by omega
    rw [this]
    omega
  rw [eR, eG, eB]

/-! ## Grid builder lemmas for C2 and C10 -/

theorem le_foldl_max :
    ∀ (lines : List (List Char)) (acc : Nat),
      acc ≤ lines.foldl (fun acc l => if acc < l.length then l.length else acc) acc := by
  intro lines
  induction lines with
  | nil => intro acc; exact le_refl acc
  | cons hd rest ih =>
    intro acc
    rw [List.foldl_cons]
    rcases lt_or_ge acc hd.length with h | h
    · rw [if_pos h]
      exact le_trans (le_of_lt h) (ih hd.length)
    · rw [if_neg (not_lt.mpr h)]
      exact ih acc

theorem mem_le_foldl_max :
    ∀ (lines : List (List Char)) (acc : Nat) (l : List Char), l ∈ lines →
      l.length ≤ lines.foldl (fun acc l => if acc < l.length then l.length else acc) acc := by
  intro lines
  induction lines with
  | nil => intro acc l hl; exact absurd hl (List.not_mem_nil l)
  | cons hd rest ih =>
    intro acc l hl
    rw [List.foldl_cons]
    rcases List.mem_cons.mp hl with rfl | hl'
    · rcases lt_or_ge acc l.length with h | h
      · rw [if_pos h]
        exact le_foldl_max rest l.length
      · rw [if_neg (not_lt.mpr h)]
        exact le_trans h (le_foldl_max rest acc)
    · exact ih _ l hl'

theorem length_le_goMaxWidth {l : List Char} {lines : List (List Char)} (h : l ∈ lines) :
    l.length ≤ goMaxWidth lines :=
  mem_le_foldl_max lines 0 l h

theorem foldl_max_const {n : Nat} :
    ∀ rest : List (List Char), (∀ l ∈ rest, l.length = n) →
      rest.foldl (fun acc l => if acc < l.length then l.length else acc) n = n := by
  intro rest
  induction rest with
  | nil => intro _; rfl
  | cons hd t ih =>
    intro h
    rw [List.foldl_cons, h hd (List.mem_cons_self hd t), if_neg (lt_irrefl n)]
    exact ih fun l hl => h l (List.mem_cons_of_mem hd hl)

theorem goMaxWidth_const {n : Nat} {lines : List (List Char)}
    (h : ∀ l ∈ lines, l.length = n) (hne : lines ≠ []) : goMaxWidth lines = n := by
  rcases lines with _ | ⟨hd, rest⟩
  · exact absurd rfl hne
  · rw [goMaxWidth, List.foldl_cons]
    have hhd : hd.length = n := h hd (List.mem_cons_self hd rest)
    have hstep : (if 0 < hd.length then hd.length else 0) = n := by
      rcases Nat.eq_zero_or_pos hd.length with h0 | h0
      · rw [if_neg (by omega)]
        omega
      · rw [if_pos h0]
        exact hhd
    rw [hstep]
    exact foldl_max_const rest fun l hl => h l (List.mem_cons_of_mem hd hl)

theorem splitNl_ne_nil (s : List Char) : splitNl s ≠ [] := by
  induction s with
  | nil => simp [splitNl]
  | cons c rest ih =>
    rw [splitNl]
    by_cases hc : c = '\n'
    · rw [if_pos hc]
      exact List.cons_ne_nil _ _
    · rw [if_neg hc]
      rcases h : splitNl rest with _ | ⟨l, ls⟩
      · exact absurd h ih
      · exact List.cons_ne_nil _ _

theorem head?_dropWhile_false {p : Char → Bool} :
    ∀ (l : List Char) (c : Char), (l.dropWhile p).head? = some c → p c = false := by
  intro l
  induction l with
  | nil => intro c h; simp at h
  | cons a t ih =>
    intro c h
    rw [List.dropWhile_cons] at h
    by_cases hp : p a
    · rw [if_pos hp] at h
      exact ih c h
    · rw [if_neg hp] at h
      injection h with h'
      subst h'
      exact (Bool.not_eq_true (p a)) ▸ hp

theorem dropTrailingNl_getLast (s : List Char) : (dropTrailingNl s).getLast? ≠ some '\n' := by
  intro h
  rw [dropTrailingNl, List.getLast?_reverse] at h
  have := head?_dropWhile_false _ _ h
  simp at this

theorem splitNl_getLast_ne_nil :
    ∀ s : List Char, s ≠ [] → s.getLast? ≠ some '\n' → (splitNl s).getLast? ≠ some [] := by
  intro s
  induction s with
  | nil => intro h; exact absurd rfl h
  | cons c rest ih =>
    intro _ hlast
    rcases rest with _ | ⟨a, t⟩
    · have hc : c ≠ '\n' := by
        intro he
        apply hlast
        rw [he]
        simp
      rw [splitNl, if_neg hc]
      simp [splitNl]
    · have hlast' : (a :: t).getLast? ≠ some '\n' := by
        rwa [List.getLast?_cons_cons] at hlast
      have ihr := ih (List.cons_ne_nil a t) hlast'
      obtain ⟨l0, ls, hsp⟩ := List.exists_cons_of_ne_nil (splitNl_ne_nil (a :: t))
      by_cases hc : c = '\n'
      · rw [splitNl, if_pos hc, hsp, List.getLast?_cons_cons]
        rw [hsp] at ihr
        exact ihr
      · rw [splitNl, if_neg hc, hsp]
        rcases ls with _ | ⟨l1, ls'⟩
        · show ((c :: l0) :: []).getLast? ≠ some []
          simp
        · show ((c :: l0) :: l1 :: ls').getLast? ≠ some []
          rw [List.getLast?_cons_cons]
          rw [hsp, List.getLast?_cons_cons] at ihr
          exact ihr

/-! ## C2: the banner grid builder -/

/-- Claim C2: for any output of the glyph-generator collaborator,
`rebuildArt` never fails, trims trailing blank (empty) lines, and —
whenever the collaborator delivers a rectangular grid, as the
specification's external-interface contract promises — every stored line
has length exactly `maxWidth`; an empty collaborator output yields a
single empty line.  (The glyph generator itself is an external
dependency, modelled from the spec as an arbitrary function whose output
the builder must accept.) -/
theorem rebuildArt_grid_spec :
    ∀ figOut : List Char,
      (rebuildArtLines figOut).1 ≠ [] ∧
      ((rebuildArtLines figOut).1 = [[]] ∨ (rebuildArtLines figOut).1.getLast? ≠ some []) ∧
      ((∀ l1 ∈ (rebuildArtLines figOut).1, ∀ l2 ∈ (rebuildArtLines figOut).1,
          l1.length = l2.length) →
        ∀ l ∈ (rebuildArtLines figOut).1, l.length = (rebuildArtLines figOut).2) ∧
      rebuildArtLines [] = ([[]], 0) := by
  intro figOut
  refine ⟨splitNl_ne_nil _, ?_, ?_, by decide⟩
  · by_cases hs : dropTrailingNl figOut = []
    · left
      show splitNl (dropTrailingNl figOut) = [[]]
      rw [hs]
      rfl
    · right
      exact splitNl_getLast_ne_nil _ hs (dropTrailingNl_getLast figOut)
  · intro hrect l hl
    obtain ⟨l0, ls, hsp⟩ :=
      List.exists_cons_of_ne_nil (splitNl_ne_nil (dropTrailingNl figOut))
    have hl0 : l0 ∈ (rebuildArtLines figOut).1 := by
      show l0 ∈ splitNl (dropTrailingNl figOut)
      rw [hsp]
      exact List.mem_cons_self l0 ls
    have hall : ∀ l' ∈ (rebuildArtLines figOut).1, l'.length = l0.length := fun l' hl' =>
      hrect l' hl' l0 hl0
    have hW : (rebuildArtLines figOut).2 = l0.length :=
      goMaxWidth_const hall (splitNl_ne_nil _)
    rw [hW]
    exact hall l hl

/-- Witness for `rebuildArt_grid_spec`: the rectangularity hypothesis
holds for the concrete collaborator output `"ab\ncd"` and yields a grid
of full-width lines. -/
theorem rebuildArt_grid_spec_witness :
    ∀ l ∈ (rebuildArtLines "ab\ncd".toList).1, l.length = (rebuildArtLines "ab\ncd".toList).2 :=
  (rebuildArt_grid_spec "ab\ncd".toList).2.2.1 (by decide)

/-! ## C10: padding and indexing in the render loop are safe -/

/-- Claim C10: after `rebuildArt`, `maxWidth` bounds every stored line's
length, so the `View` padding repeat count `maxWidth - len(line)` is
never negative, the padded line has length exactly `maxWidth`, and the
byte access `line[x]` is in bounds for every `x < maxWidth`. -/
theorem view_render_safety :
    ∀ (figOut : List Char) (l : List Char), l ∈ (rebuildArtLines figOut).1 →
      l.length ≤ (rebuildArtLines figOut).2 ∧
      (padLine (rebuildArtLines figOut).2 l).length = (rebuildArtLines figOut).2 ∧
      ∀ x : Nat, x < (rebuildArtLines figOut).2 →
        x < (padLine (rebuildArtLines figOut).2 l).length := by
  intro figOut l hl
  have hle : l.length ≤ (rebuildArtLines figOut).2 := length_le_goMaxWidth hl
  have hpad : (padLine (rebuildArtLines figOut).2 l).length = (rebuildArtLines figOut).2 := by
    rw [padLine]
    by_cases hlt : l.length < (rebuildArtLines figOut).2
    · rw [if_pos hlt, List.length_append, List.length_replicate]
      omega
    · rw [if_neg hlt]
      omega
  refine ⟨hle, hpad, ?_⟩
  intro x hx
  rw [hpad]
  exact hx

/-- Witness for `view_render_safety` at the ragged concrete grid
`"ab\nc"`, whose second line is shorter than `maxWidth`. -/
theorem view_render_safety_witness :
    ['c'].length ≤ (rebuildArtLines "ab\nc".toList).2 ∧
    (padLine (rebuildArtLines "ab\nc".toList).2 ['c']).length = (rebuildArtLines "ab\nc".toList).2 ∧
    ∀ x : Nat, x < (rebuildArtLines "ab\nc".toList).2 →
      x < (padLine (rebuildArtLines "ab\nc".toList).2 ['c']).length :=
  view_render_safety "ab\nc".toList ['c'] (by decide)

/-- Witness for `hex_round_trip` at `#8a2be2`. -/
theorem hex_round_trip_witness :
    (0 : Int) ≤ 138 ∧ (138 : Int) ≤ 255 ∧
    parseHexColor (hexString ⟨138, 43, 226⟩) = some ⟨138, 43, 226⟩ :=
  ⟨by decide, by decide,
   hex_round_trip ⟨138, 43, 226⟩ (by decide) (by decide) (by decide) (by decide)
     (by decide) (by decide)⟩

/-! ## State machine lemmas for C3, C4 and C9 -/

@[simp] theorem rebuildArt_baseStart (fig : FigFun) (m : Model) :
    (rebuildArt fig m).baseStart = m.baseStart := rfl

@[simp] theorem rebuildArt_baseEnd (fig : FigFun) (m : Model) :
    (rebuildArt fig m).baseEnd = m.baseEnd := rfl

@[simp] theorem rebuildArt_animate (fig : FigFun) (m : Model) :
    (rebuildArt fig m).animate = m.animate := rfl

@[simp] theorem rebuildArt_hueShift (fig : FigFun) (m : Model) :
    (rebuildArt fig m).hueShift = m.hueShift := rfl

@[simp] theorem rebuildArt_stepDeg (fig : FigFun) (m : Model) :
    (rebuildArt fig m).stepDeg = m.stepDeg := rfl

@[simp] theorem rebuildArt_fontIndex (fig : FigFun) (m : Model) :
    (rebuildArt fig m).fontIndex = m.fontIndex := rfl

@[simp] theorem rebuildArt_mode (fig : FigFun) (m : Model) :
    (rebuildArt fig m).mode = m.mode := rfl

@[simp] theorem rebuildArt_focusIndex (fig : FigFun) (m : Model) :
    (rebuildArt fig m).focusIndex = m.focusIndex := rfl

theorem figFonts_length : figFonts.length = 148 := by decide

theorem modeNames_length : modeNames.length = 4 := rfl

theorem goIntMod_bounds {a b : Int} (ha : 0 ≤ a) (hb : 0 < b) :
    0 ≤ goIntMod a b ∧ goIntMod a b < b :=
  ⟨Int.tmod_nonneg b ha, Int.tmod_lt_of_pos a hb⟩

theorem goFmod_nonneg_lt {x y : ℚ} (hx : 0 ≤ x) (hy : 0 < y) :
    0 ≤ goFmod x y ∧ goFmod x y < y := by
  have hq : 0 ≤ x / y := div_nonneg hx hy.le
  rw [goFmod, ratTrunc, if_pos hq]
  have h1 : ((⌊x / y⌋ : Int) : ℚ) ≤ x / y := Int.floor_le _
  have h2 : x / y < ((⌊x / y⌋ : Int) : ℚ) + 1 := Int.lt_floor_add_one _
  have h1' : ((⌊x / y⌋ : Int) : ℚ) * y ≤ x := by
    rw [← le_div_iff₀ hy]
    exact h1
  have h2' : x < (((⌊x / y⌋ : Int) : ℚ) + 1) * y := by
    rw [← div_lt_iff₀ hy]
    exact h2
  constructor
  · nlinarith
  · nlinarith

theorem goFmod_neg_bounds {x y : ℚ} (hx : x < 0) (hy : 0 < y) :
    -y < goFmod x y ∧ goFmod x y ≤ 0 := by
  have hq : x / y < 0 := div_neg_of_neg_of_pos hx hy
  rw [goFmod, ratTrunc, if_neg (not_le.mpr hq)]
  have h1 : x / y ≤ ((⌈x / y⌉ : Int) : ℚ) := Int.le_ceil _
  have h2 : ((⌈x / y⌉ : Int) : ℚ) < x / y + 1 := Int.ceil_lt_add_one _
  have h1' : x ≤ ((⌈x / y⌉ : Int) : ℚ) * y := by
    rw [← div_le_iff₀ hy]
    exact h1
  have h2' : ((⌈x / y⌉ : Int) : ℚ) * y < (x / y + 1) * y := mul_lt_mul_of_pos_right h2 hy
  have h3 : (x / y + 1) * y = x + y := by
    field_simp
  constructor
  · nlinarith
  · nlinarith

theorem goFmod_eq_self {x y : ℚ} (h0 : 0 ≤ x) (hxy : x < y) : goFmod x y = x := by
  have hy : 0 < y := lt_of_le_of_lt h0 hxy
  have hq : 0 ≤ x / y := div_nonneg h0 hy.le
  have hf : ⌊x / y⌋ = 0 := by
    rw [Int.floor_eq_zero_iff]
    constructor
    · exact hq
    · rw [div_lt_one hy]
      exact hxy
  rw [goFmod, ratTrunc, if_pos hq, hf]
  push_cast
  ring

theorem goFmod_self360 : goFmod (360 : ℚ) 360 = 0 := by
  rw [goFmod]
  have h1 : (360 : ℚ) / 360 = 1 := by norm_num
  rw [h1]
  have h2 : ratTrunc (1 : ℚ) = 1 := by
    rw [← Int.cast_one, ratTrunc_intCast]
  rw [h2]
  norm_num

theorem invM_init (fig : FigFun) : InvM (newModel fig) := by
  refine ⟨?_, ?_, ?_, ?_, ?_, ?_, ?_, ?_, ?_, ?_⟩
  · show (0 : Int) ≤ 0
    norm_num
  · show (0 : Int) < (figFonts.length : Int)
    norm_num [figFonts_length]
  · show (0 : Int) ≤ 1
    norm_num
  · show (1 : Int) < 4
    norm_num
  · show (0 : Int) ≤ 0
    norm_num
  · show (0 : Int) < 3
    norm_num
  · show (0 : ℚ) ≤ 0
    norm_num
  · show (0 : ℚ) < 360
    norm_num
  · show (1 : ℚ) / 2 ≤ 3
    norm_num
  · show (3 : ℚ) ≤ 30
    norm_num

theorem invM_step (fig : FigFun) (m : Model) (msg : GoMsg) (h : InvM m) :
    InvM (updateM fig m msg).1 := by
  obtain ⟨h1, h2, h3, h4, h5, h6, h7, h8, h9, h10⟩ := h
  have hlen : (figFonts.length : Int) = 148 := by norm_num [figFonts_length]
  cases msg with
  | winSize w hh => exact ⟨h1, h2, h3, h4, h5, h6, h7, h8, h9, h10⟩
  | tick =>
    by_cases ha : m.animate
    · have hb := @goFmod_nonneg_lt (m.hueShift + m.stepDeg) 360 (by linarith) (by norm_num)
      simp only [updateM, ha, if_true]
      exact ⟨h1, h2, h3, h4, h5, h6, hb.1, hb.2, h9, h10⟩
    · simp only [updateM, ha, if_false]
      exact ⟨h1, h2, h3, h4, h5, h6, h7, h8, h9, h10⟩
  | key k =>
    cases k with
    | quit => exact ⟨h1, h2, h3, h4, h5, h6, h7, h8, h9, h10⟩
    | tab =>
      refine ⟨h1, h2, h3, h4, ?_, ?_, h7, h8, h9, h10⟩ <;>
        · simp only [updateM]
          split_ifs <;> omega
    | shiftTab =>
      refine ⟨h1, h2, h3, h4, ?_, ?_, h7, h8, h9, h10⟩ <;>
        · simp only [updateM]
          split_ifs <;> omega
    | fontPrev =>
      have hb := @goIntMod_bounds (m.fontIndex - 1 + (figFonts.length : Int))
        (figFonts.length : Int) (by rw [hlen]; omega) (by rw [hlen]; norm_num)
      exact ⟨hb.1, hb.2, h3, h4, h5, h6, h7, h8, h9, h10⟩
    | fontNext =>
      have hb := @goIntMod_bounds (m.fontIndex + 1) (figFonts.length : Int)
        (by omega) (by rw [hlen]; norm_num)
      exact ⟨hb.1, hb.2, h3, h4, h5, h6, h7, h8, h9, h10⟩
    | modeKey =>
      have hm4 : ((modeNames.length : Nat) : Int) = 4 := by norm_num [modeNames_length]
      have hb := @goIntMod_bounds (m.mode + 1) ((modeNames.length : Nat) : Int)
        (by omega) (by rw [hm4]; norm_num)
      have hb2 := hb.2
      rw [hm4] at hb2
      exact ⟨h1, h2, hb.1, hb2, h5, h6, h7, h8, h9, h10⟩
    | animKey => exact ⟨h1, h2, h3, h4, h5, h6, h7, h8, h9, h10⟩
    | speedUp =>
      refine ⟨h1, h2, h3, h4, h5, h6, h7, h8, ?_, ?_⟩
      · show (1 : ℚ) / 2 ≤ min 30 (m.stepDeg + 1 / 2)
        exact le_min (by norm_num) (by linarith)
      · show min (30 : ℚ) (m.stepDeg + 1 / 2) ≤ 30
        exact min_le_left _ _
    | speedDown =>
      refine ⟨h1, h2, h3, h4, h5, h6, h7, h8, ?_, ?_⟩
      · show (1 : ℚ) / 2 ≤ max (1 / 2) (m.stepDeg - 1 / 2)
        exact le_max_left _ _
      · show max ((1 : ℚ) / 2) (m.stepDeg - 1 / 2) ≤ 30
        exact max_le (by norm_num) (by linarith)
    | other v0 v1 v2 =>
      rcases hp1 : parseHexColor v1 with _ | c1 <;> rcases hp2 : parseHexColor v2 with _ | c2 <;>
        · simp only [updateM, hp1, hp2]
          exact ⟨h1, h2, h3, h4, h5, h6, h7, h8, h9, h10⟩

theorem reachable_invM : ∀ m : Model, Reachable m → InvM m := by
  intro m h
  induction h with
  | init fig => exact invM_init fig
  | step fig m' msg _ ih => exact invM_step fig m' msg ih

/-! ## C9: index ranges and wraparound -/

/-- Claim C9: in every reachable state the font index, render-mode index
and focus index are in range (`[0, 148)`, `[0, 4)`, `[0, 3)`), and the
index arithmetic wraps at both ends: FontPrev at index 0 goes to the
last font, FontNext at the last index returns to 0, CycleMode wraps its
4 values, and Tab/Shift-Tab wrap the 3 fields. -/
theorem index_wraparound :
    (∀ m : Model, Reachable m →
      0 ≤ m.fontIndex ∧ m.fontIndex < (figFonts.length : Int) ∧
      0 ≤ m.mode ∧ m.mode < 4 ∧ 0 ≤ m.focusIndex ∧ m.focusIndex < 3) ∧
    (∀ (fig : FigFun) (m : Model), m.fontIndex = 0 →
      ((updateM fig m (.key .fontPrev)).1).fontIndex = (figFonts.length : Int) - 1) ∧
    (∀ (fig : FigFun) (m : Model), m.fontIndex = (figFonts.length : Int) - 1 →
      ((updateM fig m (.key .fontNext)).1).fontIndex = 0) ∧
    (∀ (fig : FigFun) (m : Model), m.mode = 3 →
      ((updateM fig m (.key .modeKey)).1).mode = 0) ∧
    (∀ (fig : FigFun) (m : Model), m.focusIndex = 2 →
      ((updateM fig m (.key .tab)).1).focusIndex = 0) ∧
    (∀ (fig : FigFun) (m : Model), m.focusIndex = 0 →
      ((updateM fig m (.key .shiftTab)).1).focusIndex = 2) := by
  have hlen : (figFonts.length : Int) = 148 := by norm_num [figFonts_length]
  refine ⟨?_, ?_, ?_, ?_, ?_, ?_⟩
  · intro m hm
    obtain ⟨h1, h2, h3, h4, h5, h6, _⟩ := reachable_invM m hm
    exact ⟨h1, h2, h3, h4, h5, h6⟩
  · intro fig m hm
    simp only [updateM, rebuildArt_fontIndex]
    rw [hm, hlen]
    decide
  · intro fig m hm
    simp only [updateM, rebuildArt_fontIndex]
    rw [hm, hlen]
    decide
  · intro fig m hm
    simp only [updateM]
    rw [hm]
    decide
  · intro fig m hm
    simp only [updateM]
    rw [hm]
    decide
  · intro fig m hm
    simp only [updateM]
    rw [hm]
    decide

/-- Witness for `index_wraparound`: from the initial state (font index 0)
FontPrev wraps to the last catalog index. -/
theorem index_wraparound_witness :
    (newModel figEmptyOut).fontIndex = 0 ∧
    ((updateM figEmptyOut (newModel figEmptyOut) (.key .fontPrev)).1).fontIndex =
      (figFonts.length : Int) - 1 :=
  ⟨rfl, index_wraparound.2.1 figEmptyOut (newModel figEmptyOut) rfl⟩

/-! ## C4: tick handling and hue phase -/

theorem tickIter_hueShift (fig : FigFun) :
    ∀ (n : Nat) (m : Model), m.animate = true →
      (tickIter fig n m).hueShift = hueN n m.hueShift m.stepDeg := by
  intro n
  induction n with
  | zero => intro m _; rfl
  | succ k ih =>
    intro m hm
    rw [tickIter]
    have hstep : (updateM fig m .tick).1 =
        { m with hueShift := goFmod (m.hueShift + m.stepDeg) 360 } := by
      simp [updateM, hm]
    rw [hstep]
    rw [ih { m with hueShift := goFmod (m.hueShift + m.stepDeg) 360 } hm]
    rfl

theorem hueN_wrap_120 : hueN 120 0 3 = 0 := by
  have key : ∀ j : Nat, 1 ≤ j → (j ≤ 120 → hueN j (3 * (120 - (j : ℚ))) 3 = 0) := by
    intro j hj1
    induction j, hj1 using Nat.le_induction with
    | base =>
      intro _
      show goFmod (3 * (120 - ((1 : Nat) : ℚ)) + 3) 360 = 0
      have he : 3 * (120 - ((1 : Nat) : ℚ)) + 3 = 360 := by push_cast; ring
      rw [he]
      exact goFmod_self360
    | succ k hk ihk =>
      intro hk120
      rw [hueN]
      have harg : goFmod (3 * (120 - ((k + 1 : Nat) : ℚ)) + 3) 360 = 3 * (120 - (k : ℚ)) := by
        have hkle : (k : ℚ) ≤ 119 := by exact_mod_cast (by omega : k ≤ 119)
        have hkge : (1 : ℚ) ≤ (k : ℚ) := by exact_mod_cast hk
        have he : 3 * (120 - ((k + 1 : Nat) : ℚ)) + 3 = 3 * (120 - (k : ℚ)) := by
          push_cast
          ring
        rw [he]
        apply goFmod_eq_self
        · nlinarith
        · nlinarith
      rw [harg]
      exact ihk (by omega)
  have h120 := key 120 (by norm_num) (by norm_num)
  norm_num at h120
  exact h120

/-- Claim C4: a Tick with `animate = false` leaves the model unchanged
and schedules nothing; a Tick with `animate = true` sets
`hueShift := (hueShift + stepDeg) mod 360` and schedules exactly one
future tick; from the initial state (`hueShift = 0`, `stepDeg = 3`,
animation on) 120 ticks return `hueShift` to 0; and in every reachable
state `hueShift` lies in `[0, 360)`. -/
theorem tick_spec :
    (∀ (fig : FigFun) (m : Model), m.animate = false →
      updateM fig m .tick = (m, GoCmd.nilCmd)) ∧
    (∀ (fig : FigFun) (m : Model), m.animate = true →
      updateM fig m .tick =
        ({ m with hueShift := goFmod (m.hueShift + m.stepDeg) 360 }, GoCmd.tickCmd)) ∧
    (∀ fig : FigFun, (tickIter fig 120 (newModel fig)).hueShift = 0) ∧
    (∀ m : Model, Reachable m → 0 ≤ m.hueShift ∧ m.hueShift < 360) := by
  refine ⟨?_, ?_, ?_, ?_⟩
  · intro fig m hm
    simp [updateM, hm]
  · intro fig m hm
    simp [updateM, hm]
  · intro fig
    rw [tickIter_hueShift fig 120 (newModel fig) rfl]
    exact hueN_wrap_120
  · intro m hm
    obtain ⟨_, _, _, _, _, _, h7, h8, _, _⟩ := reachable_invM m hm
    exact ⟨h7, h8⟩

/-- Witness for `tick_spec`: one tick from the initial state (animation
on) advances the hue phase and re-arms the timer. -/
theorem tick_spec_witness :
    (newModel figEmptyOut).animate = true ∧
    updateM figEmptyOut (newModel figEmptyOut) .tick =
      ({ newModel figEmptyOut with
          hueShift :=
            goFmod ((newModel figEmptyOut).hueShift + (newModel figEmptyOut).stepDeg) 360 },
        GoCmd.tickCmd) :=
  ⟨rfl, tick_spec.2.1 figEmptyOut (newModel figEmptyOut) rfl⟩

/-! ## C3: last-good-value color adoption on field edits -/

/-- Claim C3: after a FieldEdit event (any key without a dedicated
binding), each color field's text is re-parsed; a successful parse
replaces the corresponding base color and a failed parse silently
retains the previous one, with no error state.  Concretely, from the
initial `#8A2BE2` start color, editing the field to `#zzzzzz` leaves
`baseStart` unchanged and a subsequent edit to `#000000` sets it to
black. -/
theorem fieldEdit_last_good_value :
    (∀ (fig : FigFun) (m : Model) (v0 v1 v2 : List Char),
      (parseHexColor v1 = none →
        ((updateM fig m (.key (.other v0 v1 v2))).1).baseStart = m.baseStart) ∧
      (∀ c : colorRGB, parseHexColor v1 = some c →
        ((updateM fig m (.key (.other v0 v1 v2))).1).baseStart = c) ∧
      (parseHexColor v2 = none →
        ((updateM fig m (.key (.other v0 v1 v2))).1).baseEnd = m.baseEnd) ∧
      (∀ c : colorRGB, parseHexColor v2 = some c →
        ((updateM fig m (.key (.other v0 v1 v2))).1).baseEnd = c)) ∧
    (∀ fig : FigFun,
      (newModel fig).baseStart = ⟨138, 43, 226⟩ ∧
      ((updateM fig (newModel fig)
          (.key (.other "glam dm".toList "#zzzzzz".toList "#00FFFF".toList))).1).baseStart =
        ⟨138, 43, 226⟩ ∧
      ((updateM fig
          ((updateM fig (newModel fig)
              (.key (.other "glam dm".toList "#zzzzzz".toList "#00FFFF".toList))).1)
          (.key (.other "glam dm".toList "#000000".toList "#00FFFF".toList))).1).baseStart =
        ⟨0, 0, 0⟩) := by
  have hzz : parseHexColor ['#', 'z', 'z', 'z', 'z', 'z', 'z'] = none := by decide
  have hcyan : parseHexColor ['#', '0', '0', 'F', 'F', 'F', 'F'] = some ⟨0, 255, 255⟩ := by
    decide
  have hblack : parseHexColor ['#', '0', '0', '0', '0', '0', '0'] = some ⟨0, 0, 0⟩ := by decide
  constructor
  · intro fig m v0 v1 v2
    refine ⟨?_, ?_, ?_, ?_⟩
    · intro hp1
      rcases hp2 : parseHexColor v2 with _ | c2 <;> simp [updateM, hp1, hp2]
    · intro c hp1
      rcases hp2 : parseHexColor v2 with _ | c2 <;> simp [updateM, hp1, hp2]
    · intro hp2
      rcases hp1 : parseHexColor v1 with _ | c1 <;> simp [updateM, hp1, hp2]
    · intro c hp2
      rcases hp1 : parseHexColor v1 with _ | c1 <;> simp [updateM, hp1, hp2]
  · intro fig
    refine ⟨rfl, ?_, ?_⟩
    · simp [updateM, hzz, hcyan]
      rfl
    · simp [updateM, hzz, hcyan, hblack]

/-- Witness for `fieldEdit_last_good_value`: an edit producing the
invalid text `#zzzzzz` leaves the base start color untouched. -/
theorem fieldEdit_last_good_value_witness :
    parseHexColor "#zzzzzz".toList = none ∧
    ((updateM figEmptyOut (newModel figEmptyOut)
        (.key (.other [] "#zzzzzz".toList []))).1).baseStart =
      (newModel figEmptyOut).baseStart :=
  ⟨by decide,
   (fieldEdit_last_good_value.1 figEmptyOut (newModel figEmptyOut) [] "#zzzzzz".toList []).1
     (by decide)⟩

/-! ## C5: the per-cell compositor -/

theorem getD_map_of_lt {α β : Type} (f : α → β) (l : List α) (y : Nat) (hy : y < l.length)
    (d : β) (d' : α) : (l.map f).getD y d = f (l.getD y d') := by
  have h1 : l[y]? = some l[y] := List.getElem?_eq_getElem hy
  rw [List.getD_eq_getElem?_getD, List.getElem?_map, h1]
  rw [List.getD_eq_getElem?_getD, h1]
  rfl

theorem getD_range_map {β : Type} (f : Nat → β) (n x : Nat) (hx : x < n) (d : β) :
    ((List.range n).map f).getD x d = f x := by
  rw [getD_map_of_lt f (List.range n) x (by simpa using hx) d 0]
  congr 1
  rw [List.getD_eq_getElem?_getD, List.getElem?_range hx]
  rfl

theorem flatMap_singletons {α β : Type} (f : α → β) (l : List α) :
    (l.flatMap fun a => [f a]) = l.map f := by
  induction l with
  | nil => rfl
  | cons a t ih => simp only [List.flatMap_cons, List.map_cons, ih, List.singleton_append]

theorem viewCellsRow_singleton (effS effE : colorRGB) (W : Nat) (mode : Int) (gl : Char → Char)
    (hmode : ∀ ch, modeGlyphs mode ch = [gl ch]) (line : List Char) (x : Nat) (hx : x < W) :
    (viewCellsRow effS effE W mode line).getD x ((' ' : Char), (none : Option colorRGB)) =
      (if (padLine W line).getD x ' ' = ' ' then ((' ' : Char), (none : Option colorRGB))
       else (gl ((padLine W line).getD x ' '), some (lerp effS effE (gradT W x)))) := by
  have hrow : viewCellsRow effS effE W mode line =
      (List.range W).map fun z =>
        if (padLine W line).getD z ' ' = ' ' then ((' ' : Char), (none : Option colorRGB))
        else (gl ((padLine W line).getD z ' '), some (lerp effS effE (gradT W z))) := by
    rw [viewCellsRow, ← flatMap_singletons]
    congr 1
    funext z
    by_cases hz : (padLine W line).getD z ' ' = ' '
    · show (if (padLine W line).getD z ' ' = ' ' then _ else _) = _
      rw [if_pos hz, if_pos hz]
    · show (if (padLine W line).getD z ' ' = ' ' then _ else _) = _
      rw [if_neg hz, if_neg hz, hmode]
      rfl
  rw [hrow, getD_range_map _ W x hx]

/-- Claim C5: the compositor uses the hue-rotated endpoints exactly when
animating, emits an uncolored blank for a blank source cell, and colors
every non-blank cell at column `x` with
`lerp effStart effEnd (x / (maxWidth - 1))` (`t = 0` when
`maxWidth ≤ 1`) — the same color for every row and for every render
mode — while the emitted glyph follows the mode table (`glyphOf`). -/
theorem view_compositor_spec :
    ∀ (m : Model) (y x : Nat), 0 ≤ m.mode → m.mode < 4 →
      y < m.artLines.length → x < m.maxWidth →
      ((viewRows m).getD y []).getD x ((' ' : Char), (none : Option colorRGB)) =
        (if (padLine m.maxWidth (m.artLines.getD y [])).getD x ' ' = ' '
         then ((' ' : Char), (none : Option colorRGB))
         else
           (glyphOf m.mode ((padLine m.maxWidth (m.artLines.getD y [])).getD x ' '),
            some (lerp (if m.animate then rotateHue m.baseStart m.hueShift else m.baseStart)
              (if m.animate then rotateHue m.baseEnd m.hueShift else m.baseEnd)
              (gradT m.maxWidth x)))) := by
  intro m y x h0 h4 hy hx
  have hrow : (viewRows m).getD y [] =
      viewCellsRow (if m.animate then rotateHue m.baseStart m.hueShift else m.baseStart)
        (if m.animate then rotateHue m.baseEnd m.hueShift else m.baseEnd)
        m.maxWidth m.mode (m.artLines.getD y []) :=
    getD_map_of_lt _ m.artLines y hy [] []
  rw [hrow]
  have hmode : m.mode = 0 ∨ m.mode = 1 ∨ m.mode = 2 ∨ m.mode = 3 := by omega
  rcases hmode with hm | hm | hm | hm <;> rw [hm]
  · exact viewCellsRow_singleton _ _ _ 0 (glyphOf 0) (fun ch => rfl) _ x hx
  · exact viewCellsRow_singleton _ _ _ 1 (glyphOf 1) (fun ch => rfl) _ x hx
  · exact viewCellsRow_singleton _ _ _ 2 (glyphOf 2) (fun ch => rfl) _ x hx
  · exact viewCellsRow_singleton _ _ _ 3 (glyphOf 3) (fun ch => rfl) _ x hx

/-- Witness for `view_compositor_spec` on the concrete one-cell state
`mTest` (GLYPH mode, animation off). -/
theorem view_compositor_spec_witness :
    (0 ≤ mTest.mode ∧ mTest.mode < 4 ∧ 0 < mTest.artLines.length ∧ 0 < mTest.maxWidth) ∧
    ((viewRows mTest).getD 0 []).getD 0 ((' ' : Char), (none : Option colorRGB)) =
      (if (padLine mTest.maxWidth (mTest.artLines.getD 0 [])).getD 0 ' ' = ' '
       then ((' ' : Char), (none : Option colorRGB))
       else
         (glyphOf mTest.mode ((padLine mTest.maxWidth (mTest.artLines.getD 0 [])).getD 0 ' '),
          some (lerp (if mTest.animate then rotateHue mTest.baseStart mTest.hueShift
              else mTest.baseStart)
            (if mTest.animate then rotateHue mTest.baseEnd mTest.hueShift else mTest.baseEnd)
            (gradT mTest.maxWidth 0)))) :=
  ⟨⟨by decide, by decide, by decide, by decide⟩,
   view_compositor_spec mTest 0 0 (by decide) (by decide) (by decide) (by decide)⟩

/-! ## C8: derived colors stay inside [0,255] -/

theorem trunc255 {u : ℚ} (h0 : 0 ≤ u) (h1 : u ≤ 1) :
    0 ≤ ratTrunc (u * 255) ∧ ratTrunc (u * 255) ≤ 255 := by
  apply ratTrunc_nonneg_le
  · positivity
  · push_cast
    nlinarith

theorem hsvToRgb_mem (h0 s v : ℚ) (hs0 : 0 ≤ s) (hs1 : s ≤ 1) (hv0 : 0 ≤ v) (hv1 : v ≤ 1) :
    (0 ≤ (hsvToRgb h0 s v).R ∧ (hsvToRgb h0 s v).R ≤ 255) ∧
    (0 ≤ (hsvToRgb h0 s v).G ∧ (hsvToRgb h0 s v).G ≤ 255) ∧
    (0 ≤ (hsvToRgb h0 s v).B ∧ (hsvToRgb h0 s v).B ≤ 255) := by
  simp only [hsvToRgb]
  set H := if goFmod h0 360 < 0 then goFmod h0 360 + 360 else goFmod h0 360 with hH
  have hw : 0 ≤ H ∧ H < 360 := by
    rw [hH]
    rcases le_or_lt 0 h0 with hc | hc
    · have hb := @goFmod_nonneg_lt h0 360 hc (by norm_num)
      rw [if_neg (not_lt.mpr hb.1)]
      exact hb
    · have hb := @goFmod_neg_bounds h0 360 hc (by norm_num)
      by_cases hz : goFmod h0 360 < 0
      · rw [if_pos hz]
        constructor <;> linarith [hb.1, hb.2]
      · rw [if_neg hz]
        have : (0 : ℚ) ≤ goFmod h0 360 := not_lt.mp hz
        constructor <;> linarith [hb.2]
  have hmod2 := @goFmod_nonneg_lt (H / 60) 2 (div_nonneg hw.1 (by norm_num)) (by norm_num)
  set A := goFmod (H / 60) 2 with hA
  have habs : |A - 1| ≤ 1 := abs_le.mpr ⟨by linarith [hmod2.1], by linarith [hmod2.2]⟩
  have hone : 0 ≤ 1 - |A - 1| := by linarith
  have hone' : 1 - |A - 1| ≤ 1 := by
    have := abs_nonneg (A - 1)
    linarith
  have hc0 : 0 ≤ v * s := mul_nonneg hv0 hs0
  have hcv : v * s ≤ v := mul_le_of_le_one_right hv0 hs1
  have hx0 : 0 ≤ v * s * (1 - |A - 1|) := mul_nonneg hc0 hone
  have hxc : v * s * (1 - |A - 1|) ≤ v * s :=
    mul_le_of_le_one_right hc0 hone'
  split_ifs <;> dsimp only <;>
    exact ⟨⟨(trunc255 (by linarith) (by linarith)).1, (trunc255 (by linarith) (by linarith)).2⟩,
      ⟨(trunc255 (by linarith) (by linarith)).1, (trunc255 (by linarith) (by linarith)).2⟩,
      ⟨(trunc255 (by linarith) (by linarith)).1, (trunc255 (by linarith) (by linarith)).2⟩⟩

theorem rgbToHsv_sv (c : colorRGB) (hR0 : 0 ≤ c.R) (hR1 : c.R ≤ 255)
    (hG0 : 0 ≤ c.G) (hG1 : c.G ≤ 255) (hB0 : 0 ≤ c.B) (hB1 : c.B ≤ 255) :
    0 ≤ (rgbToHsv c).2.1 ∧ (rgbToHsv c).2.1 ≤ 1 ∧
    0 ≤ (rgbToHsv c).2.2 ∧ (rgbToHsv c).2.2 ≤ 1 := by
  have hRq : (0 : ℚ) ≤ (c.R : ℚ) := by exact_mod_cast hR0
  have hGq : (0 : ℚ) ≤ (c.G : ℚ) := by exact_mod_cast hG0
  have hBq : (0 : ℚ) ≤ (c.B : ℚ) := by exact_mod_cast hB0
  have hr0 : 0 ≤ (c.R : ℚ) / 255 := div_nonneg hRq (by norm_num)
  have hg0 : 0 ≤ (c.G : ℚ) / 255 := div_nonneg hGq (by norm_num)
  have hb0 : 0 ≤ (c.B : ℚ) / 255 := div_nonneg hBq (by norm_num)
  have hr1 : (c.R : ℚ) / 255 ≤ 1 := by
    rw [div_le_one (by norm_num : (0 : ℚ) < 255)]
    exact_mod_cast hR1
  have hg1 : (c.G : ℚ) / 255 ≤ 1 := by
    rw [div_le_one (by norm_num : (0 : ℚ) < 255)]
    exact_mod_cast hG1
  have hb1 : (c.B : ℚ) / 255 ≤ 1 := by
    rw [div_le_one (by norm_num : (0 : ℚ) < 255)]
    exact_mod_cast hB1
  simp only [rgbToHsv]
  by_cases hmax : max ((c.R : ℚ) / 255) (max ((c.G : ℚ) / 255) ((c.B : ℚ) / 255)) = 0
  · rw [if_pos hmax]
    norm_num
  · rw [if_neg hmax]
    have hmax0 : (0 : ℚ) ≤ max ((c.R : ℚ) / 255) (max ((c.G : ℚ) / 255) ((c.B : ℚ) / 255)) :=
      le_trans hr0 (le_max_left _ _)
    have hmaxpos : (0 : ℚ) < max ((c.R : ℚ) / 255) (max ((c.G : ℚ) / 255) ((c.B : ℚ) / 255)) :=
      lt_of_le_of_ne hmax0 (Ne.symm hmax)
    have hmax1 : max ((c.R : ℚ) / 255) (max ((c.G : ℚ) / 255) ((c.B : ℚ) / 255)) ≤ 1 :=
      max_le hr1 (max_le hg1 hb1)
    have hmin0 : (0 : ℚ) ≤ min ((c.R : ℚ) / 255) (min ((c.G : ℚ) / 255) ((c.B : ℚ) / 255)) :=
      le_min hr0 (le_min hg0 hb0)
    have hminmax : min ((c.R : ℚ) / 255) (min ((c.G : ℚ) / 255) ((c.B : ℚ) / 255)) ≤
        max ((c.R : ℚ) / 255) (max ((c.G : ℚ) / 255) ((c.B : ℚ) / 255)) :=
      le_trans (min_le_left _ _) (le_max_left _ _)
    refine ⟨div_nonneg (by linarith) hmax0, ?_, hmax0, hmax1⟩
    rw [div_le_one hmaxpos]
    linarith

theorem ratTrunc_chan (p q : Int) (t : ℚ) (hp0 : 0 ≤ p) (hp1 : p ≤ 255)
    (hq0 : 0 ≤ q) (hq1 : q ≤ 255) (ht0 : 0 ≤ t) (ht1 : t ≤ 1) :
    0 ≤ ratTrunc ((p : ℚ) + ((q : ℚ) - (p : ℚ)) * t) ∧
    ratTrunc ((p : ℚ) + ((q : ℚ) - (p : ℚ)) * t) ≤ 255 := by
  have hp0' : (0 : ℚ) ≤ (p : ℚ) := by exact_mod_cast hp0
  have hp1' : (p : ℚ) ≤ 255 := by exact_mod_cast hp1
  have hq0' : (0 : ℚ) ≤ (q : ℚ) := by exact_mod_cast hq0
  have hq1' : (q : ℚ) ≤ 255 := by exact_mod_cast hq1
  apply ratTrunc_nonneg_le
  · nlinarith
  · push_cast
    nlinarith

/-- Claim C8: for base colors with components in `[0,255]` and `t` in
`[0,1]`, every component of `lerp a b t` lies in `[0,255]`; and for any
such color and any hue delta, every component of `rotateHue c delta`
lies in `[0,255]` — no derivation produces a negative or `>255`
channel. -/
theorem color_range_invariant :
    (∀ (a b : colorRGB) (t : ℚ),
      0 ≤ a.R → a.R ≤ 255 → 0 ≤ a.G → a.G ≤ 255 → 0 ≤ a.B → a.B ≤ 255 →
      0 ≤ b.R → b.R ≤ 255 → 0 ≤ b.G → b.G ≤ 255 → 0 ≤ b.B → b.B ≤ 255 →
      0 ≤ t → t ≤ 1 →
      (0 ≤ (lerp a b t).R ∧ (lerp a b t).R ≤ 255) ∧
      (0 ≤ (lerp a b t).G ∧ (lerp a b t).G ≤ 255) ∧
      (0 ≤ (lerp a b t).B ∧ (lerp a b t).B ≤ 255)) ∧
    (∀ (c : colorRGB) (delta : ℚ),
      0 ≤ c.R → c.R ≤ 255 → 0 ≤ c.G → c.G ≤ 255 → 0 ≤ c.B → c.B ≤ 255 →
      (0 ≤ (rotateHue c delta).R ∧ (rotateHue c delta).R ≤ 255) ∧
      (0 ≤ (rotateHue c delta).G ∧ (rotateHue c delta).G ≤ 255) ∧
      (0 ≤ (rotateHue c delta).B ∧ (rotateHue c delta).B ≤ 255)) := by
  constructor
  · intro a b t hR0 hR1 hG0 hG1 hB0 hB1 hR0' hR1' hG0' hG1' hB0' hB1' ht0 ht1
    exact ⟨ratTrunc_chan a.R b.R t hR0 hR1 hR0' hR1' ht0 ht1,
      ratTrunc_chan a.G b.G t hG0 hG1 hG0' hG1' ht0 ht1,
      ratTrunc_chan a.B b.B t hB0 hB1 hB0' hB1' ht0 ht1⟩
  · intro c delta hR0 hR1 hG0 hG1 hB0 hB1
    have hsv := rgbToHsv_sv c hR0 hR1 hG0 hG1 hB0 hB1
    have hrot : rotateHue c delta =
        hsvToRgb ((rgbToHsv c).1 + delta) (rgbToHsv c).2.1 (rgbToHsv c).2.2 := rfl
    rw [hrot]
    exact hsvToRgb_mem _ _ _ hsv.1 hsv.2.1 hsv.2.2.1 hsv.2.2.2

/-- Witness for `color_range_invariant` at a concrete interpolation and
a concrete hue rotation. -/
theorem color_range_invariant_witness :
    ((0 ≤ (lerp ⟨0, 0, 0⟩ ⟨255, 255, 255⟩ (1 / 2)).R ∧
        (lerp ⟨0, 0, 0⟩ ⟨255, 255, 255⟩ (1 / 2)).R ≤ 255) ∧
      (0 ≤ (lerp ⟨0, 0, 0⟩ ⟨255, 255, 255⟩ (1 / 2)).G ∧
        (lerp ⟨0, 0, 0⟩ ⟨255, 255, 255⟩ (1 / 2)).G ≤ 255) ∧
      (0 ≤ (lerp ⟨0, 0, 0⟩ ⟨255, 255, 255⟩ (1 / 2)).B ∧
        (lerp ⟨0, 0, 0⟩ ⟨255, 255, 255⟩ (1 / 2)).B ≤ 255)) ∧
    ((0 ≤ (rotateHue ⟨10, 20, 30⟩ 90).R ∧ (rotateHue ⟨10, 20, 30⟩ 90).R ≤ 255) ∧
      (0 ≤ (rotateHue ⟨10, 20, 30⟩ 90).G ∧ (rotateHue ⟨10, 20, 30⟩ 90).G ≤ 255) ∧
      (0 ≤ (rotateHue ⟨10, 20, 30⟩ 90).B ∧ (rotateHue ⟨10, 20, 30⟩ 90).B ≤ 255)) :=
  ⟨color_range_invariant.1 ⟨0, 0, 0⟩ ⟨255, 255, 255⟩ (1 / 2) (by decide) (by decide)
      (by decide) (by decide) (by decide) (by decide) (by decide) (by decide) (by decide)
      (by decide) (by decide) (by decide) (by norm_num) (by norm_num),
   color_range_invariant.2 ⟨10, 20, 30⟩ 90 (by decide) (by decide) (by decide) (by decide)
      (by decide) (by decide)⟩
